import Mathlib

/-!
Shallow embedding of the attribute-resolution and environment-injection
engine of the k8s-agents-operator repository, together with the
env-name validation webhook.

Sources embedded:
  - src/src/instrumentation/sdk.go
  - src/src/api/v1alpha1/instrumentation_webhook.go

Machine state (Kubernetes objects) is modelled as plain Lean structures;
Go maps become association lists with insert-replace semantics; the
remote cluster lookup and the per-language agent injectors (package apm,
external to the engine per the spec) are passed in as function-valued
capabilities.  The one general-recursive routine, the owner-chain walk,
takes an explicit fuel argument (the Go code recurses on freshly fetched
objects; fuel bounds that recursion without changing any behaviour the
claims exercise, since the observable chains are at most two hops).
-/

namespace K8sOp

/-- Owner reference carried in Kubernetes object metadata
(kind / name / uid, the three fields sdk.go reads). -/
structure OwnerReference where
  kind : String
  name : String
  uid : String
deriving Repr, DecidableEq, Inhabited

/-- Object metadata: the fields of metav1.ObjectMeta that sdk.go touches. -/
structure ObjectMeta where
  name : String := ""
  uid : String := ""
  ownerReferences : List OwnerReference := []
  annots : List (String × String) := []
deriving Repr, DecidableEq, Inhabited

/-- Source of an environment variable value (corev1.EnvVarSource):
either a downward-API field reference or a secret key reference. -/
inductive EnvVarSource where
  | fieldRef (fieldPath : String)
  | secretKeyRef (secretName : String) (key : String) (optional : Bool)
deriving Repr, DecidableEq

/-- corev1.EnvVar: a named variable with a literal value or a value source. -/
structure EnvVar where
  name : String
  value : String := ""
  valueFrom : Option EnvVarSource := none
deriving Repr, DecidableEq, Inhabited

/-- corev1.Container: the fields sdk.go reads (name, image, env list). -/
structure Container where
  name : String := ""
  image : String := ""
  env : List EnvVar := []
deriving Repr, DecidableEq, Inhabited

/-- corev1.PodSpec restricted to the fields sdk.go reads. -/
structure PodSpec where
  containers : List Container := []
  nodeName : String := ""
deriving Repr, DecidableEq, Inhabited

/-- corev1.Pod (metadata plus spec). -/
structure Pod where
  metadata : ObjectMeta := {}
  spec : PodSpec := {}
deriving Repr, DecidableEq, Inhabited

/-- corev1.Namespace restricted to its metadata. -/
structure K8sNamespace where
  metadata : ObjectMeta := {}
deriving Repr, DecidableEq, Inhabited

/-- Go map[string]string, modelled as an association list whose insert
replaces the value of an existing key in place and appends fresh keys. -/
abbrev SMap := List (String × String)

/-- Lookup with Go's zero-value semantics: a missing key reads as "". -/
def smapGet (m : SMap) (k : String) : String :=
  match m.find? (fun p => p.1 == k) with
  | some p => p.2
  | none => ""

/-- Key-presence test for the association-list map. -/
def smapHas (m : SMap) (k : String) : Bool :=
  m.any (fun p => p.1 == k)

/-- Go map assignment m[k] = v: replace in place if the key exists,
append otherwise. -/
def smapInsert (m : SMap) (k v : String) : SMap :=
  if smapHas m k then m.map (fun p => if p.1 == k then (k, v) else p)
  else m ++ [(k, v)]

/-- Go strings.Split with a single-character separator, on the
character list: splitting the empty string yields one empty piece,
exactly as in Go.  (Written structurally so that concrete runs of the
engine reduce inside the kernel; the core library's splitter is defined
by well-founded recursion and does not.) -/
def splitChar (sep : Char) : List Char → List (List Char)
  | [] => [[]]
  | c :: rest =>
    match splitChar sep rest with
    | [] => if c == sep then [[], []] else [[c]]
    | h :: t => if c == sep then [] :: h :: t else (c :: h) :: t

/-- Go strings.Split for a one-character separator. -/
def goSplitChar (s : String) (sep : Char) : List String :=
  (splitChar sep s.data).map String.mk

/-- Substring occurrence on character lists (Go strings.Contains). -/
def listContainsSub (sub : List Char) : List Char → Bool
  | [] => sub.isEmpty
  | c :: rest => sub.isPrefixOf (c :: rest) || listContainsSub sub rest

/-- Go strings.Contains. -/
def goContains (s sub : String) : Bool :=
  listContainsSub sub.data s.data

/-- Go strings.HasPrefix. -/
def goHasPfx (s pre : String) : Bool :=
  pre.data.isPrefixOf s.data

/-- Go strings.HasSuffix. -/
def goHasSfx (s suf : String) : Bool :=
  suf.data.reverse.isPrefixOf s.data.reverse

/-- Go strings.TrimSpace (the values exercised here are ASCII, where
Char.isWhitespace agrees with Go's unicode.IsSpace). -/
def goTrim (s : String) : String :=
  String.mk (((s.data.dropWhile Char.isWhitespace).reverse.dropWhile
    Char.isWhitespace).reverse)

/-- Go strings.ToLower (ASCII case mapping, which is all the kinds in
the owner-reference switch need). -/
def goToLower (s : String) : String :=
  String.mk (s.data.map Char.toLower)

/-- Lexicographic byte order on character lists: the order
Go sort.Strings sorts by (identical to byte order on ASCII data). -/
def charListLe : List Char → List Char → Bool
  | [], _ => true
  | _ :: _, [] => false
  | a :: as, b :: bs => if a == b then charListLe as bs else decide (a < b)

/-- String order used to sort attribute keys. -/
def strLe (a b : String) : Bool :=
  charListLe a.data b.data

/-- Insertion into a sorted list of strings. -/
def insertSorted (s : String) : List String → List String
  | [] => [s]
  | t :: rest => if strLe s t then s :: t :: rest else t :: insertSorted s rest

/-- Go sort.Strings as a structural insertion sort. -/
def sortStrings : List String → List String
  | [] => []
  | s :: rest => insertSorted s (sortStrings rest)

/-- Environment variable names from the repository's constants package
(that package is not included under src/; the names are the fixed
vocabulary of spec section 6, and the claims depend only on the names
being the pairwise-distinct strings used by the engine). -/
def envOTELServiceName : String := "OTEL_SERVICE_NAME"

def envOTELExporterOTLPEndpoint : String := "OTEL_EXPORTER_OTLP_ENDPOINT"

def envOTELResourceAttrs : String := "OTEL_RESOURCE_ATTRIBUTES"

def envOTELPropagators : String := "OTEL_PROPAGATORS"

def envOTELTracesSampler : String := "OTEL_TRACES_SAMPLER"

def envOTELTracesSamplerArg : String := "OTEL_TRACES_SAMPLER_ARG"

def envPodName : String := "POD_NAME"

def envPodUID : String := "POD_UID"

def envNodeName : String := "NODE_NAME"

def envNewRelicAppName : String := "NEW_RELIC_APP_NAME"

def envNewRelicLicenseKey : String := "NEW_RELIC_LICENSE_KEY"

def envNewRelicLabels : String := "NEW_RELIC_LABELS"

/-- Semantic-convention attribute keys (go.opentelemetry.io semconv
v1.5.0 constants used by sdk.go). -/
def k8sNamespaceNameKey : String := "k8s.namespace.name"

def k8sContainerNameKey : String := "k8s.container.name"

def k8sPodNameKey : String := "k8s.pod.name"

def k8sPodUIDKey : String := "k8s.pod.uid"

def k8sNodeNameKey : String := "k8s.node.name"

def serviceInstanceIDKey : String := "service.instance.id"

def serviceVersionKey : String := "service.version"

def k8sReplicaSetNameKey : String := "k8s.replicaset.name"

def k8sReplicaSetUIDKey : String := "k8s.replicaset.uid"

def k8sDeploymentNameKey : String := "k8s.deployment.name"

def k8sDeploymentUIDKey : String := "k8s.deployment.uid"

def k8sStatefulSetNameKey : String := "k8s.statefulset.name"

def k8sStatefulSetUIDKey : String := "k8s.statefulset.uid"

def k8sDaemonSetNameKey : String := "k8s.daemonset.name"

def k8sDaemonSetUIDKey : String := "k8s.daemonset.uid"

def k8sJobNameKey : String := "k8s.job.name"

def k8sJobUIDKey : String := "k8s.job.uid"

def k8sCronJobNameKey : String := "k8s.cronjob.name"

def k8sCronJobUIDKey : String := "k8s.cronjob.uid"

/-- First index (0-based) of a variable with the given name, if any. -/
def findEnvIdx? : List EnvVar → String → Option Nat
  | [], _ => none
  | e :: rest, name =>
    if e.name == name then some 0
    else (findEnvIdx? rest name).map (fun i => i + 1)

/-- getIndexOfEnv (sdk.go lines 479-486): index of the first variable
with the given name, -1 when absent. -/
def getIndexOfEnv (envs : List EnvVar) (name : String) : Int :=
  match findEnvIdx? envs name with
  | some i => (i : Int)
  | none => -1

/-- moveEnvToListEnd (sdk.go lines 488-496): remove the element at idx
and re-append it at the end; no-op when idx is out of range. -/
def moveEnvToListEnd (envs : List EnvVar) (idx : Int) : List EnvVar :=
  if 0 ≤ idx ∧ idx < (envs.length : Int) then
    match envs[idx.toNat]? with
    | some envToMove => envs.eraseIdx idx.toNat ++ [envToMove]
    | none => envs
  else envs

/-- Per-language block of the Instrumentation spec (image plus declared
env vars: the two fields the embedded code reads). -/
structure LangSpec where
  image : String := ""
  env : List EnvVar := []
deriving Repr, DecidableEq, Inhabited

/-- Resource block of the Instrumentation spec: user-declared attribute
overrides and the include-UID-attributes flag. -/
structure Resource where
  attributes : List (String × String) := []
  addK8sUIDAttributes : Bool := false
deriving Repr, DecidableEq, Inhabited

/-- Sampler block of the Instrumentation spec.  (Field samplerType
stands for the Go field Type, which is not a usable Lean name.) -/
structure Sampler where
  samplerType : String := ""
  argument : String := ""
deriving Repr, DecidableEq, Inhabited

/-- Exporter block of the Instrumentation spec. -/
structure Exporter where
  endpoint : String := ""
deriving Repr, DecidableEq, Inhabited

/-- v1alpha1.InstrumentationSpec: common env vars, per-language blocks,
resource overrides, propagators, sampler, exporter, endpoint. -/
structure InstrumentationSpec where
  env : List EnvVar := []
  resource : Resource := {}
  propagators : List String := []
  sampler : Sampler := {}
  exporter : Exporter := {}
  endpoint : String := ""
  java : LangSpec := {}
  nodeJS : LangSpec := {}
  python : LangSpec := {}
  dotNet : LangSpec := {}
  php : LangSpec := {}
  go : LangSpec := {}
deriving Repr, DecidableEq, Inhabited

/-- v1alpha1.Instrumentation custom resource. -/
structure Instrumentation where
  metadata : ObjectMeta := {}
  spec : InstrumentationSpec := {}
deriving Repr, DecidableEq, Inhabited

/-- Outcome of one remote lookup attempt for a ReplicaSet: the fetched
object's metadata, a not-found error, or any other error. -/
inductive GetResult where
  | ok (meta : ObjectMeta)
  | notFound
  | otherError
deriving Repr, DecidableEq, Inhabited

/-- Remote lookup capability (controller-runtime client.Get): namespace
name, object name, and the attempt number (the retry loop re-invokes the
same query, so distinct attempts may observe distinct outcomes). -/
abbrev GetClient := String → String → Nat → GetResult

/-- retry.OnError with the backoff of sdk.go line 434: at most `steps`
attempts starting at attempt number `k`; success and non-retriable
errors return immediately, a not-found error retries until the budget is
exhausted, at which point the last (not-found) error is returned.
Timing of the exponential backoff is not observable in the embedding. -/
def retryOnError : Nat → (Nat → GetResult) → Nat → GetResult
  | 0, _, _ => GetResult.notFound
  | steps + 1, attempt, k =>
    match attempt k with
    | GetResult.ok m => GetResult.ok m
    | GetResult.otherError => GetResult.otherError
    | GetResult.notFound =>
      if steps = 0 then GetResult.notFound else retryOnError steps attempt (k + 1)

/-- Zero value of a ReplicaSet's metadata: what the Go variable `rs`
still holds when every lookup attempt failed. -/
def zeroObjectMeta : ObjectMeta := {}

/-- addParentResourceLabels (sdk.go lines 423-477), written as a loop
over the owner-reference list.  `fuel` bounds the recursion into freshly
fetched parents (the Go code recurses unboundedly; every real chain is
at most Pod → ReplicaSet → Deployment, so any fuel ≥ 2 is exact).
On a ReplicaSet owner the code records name (and uid when requested),
fetches the ReplicaSet with the bounded retry, and recurses into the
fetched metadata — into the zero metadata when the lookup failed, which
is how a failed lookup contributes nothing while the walk still
returns normally. -/
def addParentOwners (client : GetClient) (uid : Bool) (ns : K8sNamespace) :
    Nat → List OwnerReference → SMap → SMap
  | fuel, owners, res =>
    owners.foldl
      (fun res owner =>
        let kind := goToLower owner.kind
        if kind == "replicaset" then
          let res1 := smapInsert res k8sReplicaSetNameKey owner.name
          let res2 := if uid then smapInsert res1 k8sReplicaSetUIDKey owner.uid else res1
          let rsMeta :=
            match retryOnError 20 (client ns.metadata.name owner.name) 0 with
            | GetResult.ok m => m
            | _ => zeroObjectMeta
          match fuel with
          | 0 => res2
          | f + 1 => addParentOwners client uid ns f rsMeta.ownerReferences res2
        else if kind == "deployment" then
          let res1 := smapInsert res k8sDeploymentNameKey owner.name
          if uid then smapInsert res1 k8sDeploymentUIDKey owner.uid else res1
        else if kind == "statefulset" then
          let res1 := smapInsert res k8sStatefulSetNameKey owner.name
          if uid then smapInsert res1 k8sStatefulSetUIDKey owner.uid else res1
        else if kind == "daemonset" then
          let res1 := smapInsert res k8sDaemonSetNameKey owner.name
          if uid then smapInsert res1 k8sDaemonSetUIDKey owner.uid else res1
        else if kind == "job" then
          let res1 := smapInsert res k8sJobNameKey owner.name
          if uid then smapInsert res1 k8sJobUIDKey owner.uid else res1
        else if kind == "cronjob" then
          let res1 := smapInsert res k8sCronJobNameKey owner.name
          if uid then smapInsert res1 k8sCronJobUIDKey owner.uid else res1
        else res)
      res

/-- Entry point matching the Go function's signature: walk the owner
references of the given metadata. -/
def addParentResourceLabels (client : GetClient) (fuel : Nat) (uid : Bool)
    (ns : K8sNamespace) (objectMeta : ObjectMeta) (resources : SMap) : SMap :=
  addParentOwners client uid ns fuel objectMeta.ownerReferences resources

/-- chooseServiceName (sdk.go lines 323-340): first non-empty of the
deployment / statefulset / job / cronjob / pod names recorded in the
attribute map, falling back to the container's name. -/
def chooseServiceName (pod : Pod) (resources : SMap) (index : Nat) : String :=
  let n1 := smapGet resources k8sDeploymentNameKey
  if n1 ≠ "" then n1
  else
    let n2 := smapGet resources k8sStatefulSetNameKey
    if n2 ≠ "" then n2
    else
      let n3 := smapGet resources k8sJobNameKey
      if n3 ≠ "" then n3
      else
        let n4 := smapGet resources k8sCronJobNameKey
        if n4 ≠ "" then n4
        else
          let n5 := smapGet resources k8sPodNameKey
          if n5 ≠ "" then n5
          else (pod.spec.containers.getD index default).name

/-- chooseServiceVersion (sdk.go lines 343-351): split the image
reference on ":", take the last segment; report no version when that
segment contains "/" (a registry host:port, not a tag). -/
def chooseServiceVersion (pod : Pod) (index : Nat) : String :=
  let parts := goSplitChar (pod.spec.containers.getD index default).image ':'
  let tag := parts.getLastD ""
  if goContains tag "/" then "" else tag

/-- resourceMapToStr (sdk.go lines 353-369): keys sorted
lexicographically, serialized as comma-joined key=value pairs. -/
def resourceMapToStr (res : SMap) : String :=
  let keys := sortStrings (res.map Prod.fst)
  keys.foldl
    (fun str k =>
      (if str ≠ "" then str ++ "," else str) ++ k ++ "=" ++ smapGet res k)
    ""

/-- createServiceInstanceId (sdk.go lines 373-380):
namespace.pod.container, or "" when any part is missing. -/
def createServiceInstanceId (namespaceName podName containerName : String) : String :=
  if namespaceName ≠ "" ∧ podName ≠ "" ∧ containerName ≠ "" then
    String.intercalate "." [namespaceName, podName, containerName]
  else ""

/-- Substring test used by the service-version guard
(Go strings.Contains). -/
def strContains (s sub : String) : Bool :=
  goContains s sub

/-- Parsing of the existing resource-attributes variable into the set of
already-declared keys (sdk.go lines 385-397): pairs that do not split on
"=" into exactly two parts are skipped. -/
def parseExistingRes (containerEnv : List EnvVar) : List String :=
  let existingResourceEnvIdx := getIndexOfEnv containerEnv envOTELResourceAttrs
  if existingResourceEnvIdx > -1 then
    let value :=
      match containerEnv[existingResourceEnvIdx.toNat]? with
      | some e => e.value
      | none => ""
    (goSplitChar value ',').foldl
      (fun acc kv =>
        let keyValueArr := goSplitChar (goTrim kv) '='
        if keyValueArr.length ≠ 2 then acc else acc ++ [keyValueArr.getD 0 ""])
      []
  else []

/-- The k8sResources map of createResourceMap (sdk.go lines 405-414):
direct topology attributes plus the owner-chain walk. -/
def buildK8sResources (client : GetClient) (fuel : Nat)
    (newrelic : Instrumentation) (ns : K8sNamespace) (pod : Pod) (index : Nat) : SMap :=
  let m : SMap := []
  let m := smapInsert m k8sNamespaceNameKey ns.metadata.name
  let m := smapInsert m k8sContainerNameKey (pod.spec.containers.getD index default).name
  let m := smapInsert m k8sPodNameKey pod.metadata.name
  let m := smapInsert m k8sPodUIDKey pod.metadata.uid
  let m := smapInsert m k8sNodeNameKey pod.spec.nodeName
  let m := smapInsert m serviceInstanceIDKey
    (createServiceInstanceId ns.metadata.name pod.metadata.name
      (pod.spec.containers.getD index default).name)
  addParentResourceLabels client fuel newrelic.spec.resource.addK8sUIDAttributes
    ns pod.metadata m

/-- createResourceMap (sdk.go lines 384-421): seed from user-declared
attribute overrides skipping keys already declared in the existing
resource-attributes variable, then merge the computed topology
attributes, skipping already-declared keys and empty values. -/
def createResourceMap (client : GetClient) (fuel : Nat)
    (newrelic : Instrumentation) (ns : K8sNamespace) (pod : Pod) (index : Nat) : SMap :=
  let existingRes := parseExistingRes (pod.spec.containers.getD index default).env
  let res := newrelic.spec.resource.attributes.foldl
    (fun res p => if existingRes.contains p.1 then res else smapInsert res p.1 p.2)
    []
  let k8sResources := buildK8sResources client fuel newrelic ns pod index
  k8sResources.foldl
    (fun res p =>
      if ¬ existingRes.contains p.1 ∧ p.2 ≠ "" then smapInsert res p.1 p.2 else res)
    res

/-- Write back the mutated env list of the container at `idx` (models
the Go pointer `container := &pod.Spec.Containers[idx]`). -/
def setContainerEnv (pod : Pod) (idx : Nat) (env : List EnvVar) : Pod :=
  { pod with
    spec := { pod.spec with
      containers := pod.spec.containers.set idx
        { pod.spec.containers.getD idx default with env := env } } }

/-- Value of the env entry at a (getIndexOfEnv-produced) index. -/
def envValueAt (env : List EnvVar) (idx : Int) : String :=
  match env[idx.toNat]? with
  | some e => e.value
  | none => ""

/-- OTEL_SERVICE_NAME insert-if-absent (sdk.go lines 173-179). -/
def sdkSvcNameStep (pod : Pod) (resourceMap : SMap) (appIndex : Nat)
    (env : List EnvVar) : List EnvVar :=
  if getIndexOfEnv env envOTELServiceName = -1 then
    env ++ [{ name := envOTELServiceName,
              value := chooseServiceName pod resourceMap appIndex }]
  else env

/-- OTEL_EXPORTER_OTLP_ENDPOINT insert-if-absent, gated on the
exporter endpoint being configured; the inserted value is the spec's
top-level Endpoint field, exactly as in sdk.go lines 180-188. -/
def sdkEndpointStep (newrelic : Instrumentation) (env : List EnvVar) : List EnvVar :=
  if newrelic.spec.exporter.endpoint ≠ "" then
    if getIndexOfEnv env envOTELExporterOTLPEndpoint = -1 then
      env ++ [{ name := envOTELExporterOTLPEndpoint, value := newrelic.spec.endpoint }]
    else env
  else env

/-- Downward-API fallback for the pod name (sdk.go lines 191-201): when
the attribute map holds no pod name, append a POD_NAME field reference
and record the $(POD_NAME) placeholder in the map. -/
def sdkPodNameStep (s : List EnvVar × SMap) : List EnvVar × SMap :=
  if smapGet s.2 k8sPodNameKey = "" then
    (s.1 ++ [{ name := envPodName,
               valueFrom := some (EnvVarSource.fieldRef "metadata.name") }],
     smapInsert s.2 k8sPodNameKey ("$(" ++ envPodName ++ ")"))
  else s

/-- Downward-API fallback for the pod UID, gated on the
AddK8sUIDAttributes flag (sdk.go lines 202-214). -/
def sdkPodUIDStep (newrelic : Instrumentation) (s : List EnvVar × SMap) :
    List EnvVar × SMap :=
  if newrelic.spec.resource.addK8sUIDAttributes then
    if smapGet s.2 k8sPodUIDKey = "" then
      (s.1 ++ [{ name := envPodUID,
                 valueFrom := some (EnvVarSource.fieldRef "metadata.uid") }],
       smapInsert s.2 k8sPodUIDKey ("$(" ++ envPodUID ++ ")"))
    else s
  else s

/-- service.version recording (sdk.go lines 216-222): skipped when an
existing resource-attributes value already mentions the key; an empty
parsed version is never recorded. -/
def sdkVersionStep (pod : Pod) (appIndex : Nat) (s : List EnvVar × SMap) :
    List EnvVar × SMap :=
  let idx := getIndexOfEnv s.1 envOTELResourceAttrs
  if idx = -1 ∨ ¬ strContains (envValueAt s.1 idx) serviceVersionKey then
    let vsn := chooseServiceVersion pod appIndex
    if vsn ≠ "" then (s.1, smapInsert s.2 serviceVersionKey vsn) else s
  else s

/-- Downward-API fallback for the node name (sdk.go lines 224-234). -/
def sdkNodeNameStep (s : List EnvVar × SMap) : List EnvVar × SMap :=
  if smapGet s.2 k8sNodeNameKey = "" then
    (s.1 ++ [{ name := envNodeName,
               valueFrom := some (EnvVarSource.fieldRef "spec.nodeName") }],
     smapInsert s.2 k8sNodeNameKey ("$(" ++ envNodeName ++ ")"))
  else s

/-- OTEL_RESOURCE_ATTRIBUTES write-back (sdk.go lines 236-248): append a
fresh variable when absent, otherwise append the serialized map to the
existing value (inserting a comma unless the old value ends in one). -/
def sdkResourceAttrsStep (s : List EnvVar × SMap) : List EnvVar :=
  let idx := getIndexOfEnv s.1 envOTELResourceAttrs
  let resStr := resourceMapToStr s.2
  if idx = -1 then
    s.1 ++ [{ name := envOTELResourceAttrs, value := resStr }]
  else
    let old := envValueAt s.1 idx
    let resStr2 := if ¬ goHasSfx old "," then "," ++ resStr else resStr
    s.1.set idx.toNat { s.1.getD idx.toNat default with value := old ++ resStr2 }

/-- OTEL_PROPAGATORS insert-if-absent (sdk.go lines 250-257); the Go
code joins the typed propagator slice with commas. -/
def sdkPropagatorsStep (newrelic : Instrumentation) (env : List EnvVar) : List EnvVar :=
  if getIndexOfEnv env envOTELPropagators = -1 ∧ newrelic.spec.propagators.length > 0 then
    env ++ [{ name := envOTELPropagators,
              value := String.intercalate "," newrelic.spec.propagators }]
  else env

/-- Sampler configuration (sdk.go lines 259-275): only when configured
in the CR and neither sampler variable is already present. -/
def sdkSamplerStep (newrelic : Instrumentation) (env : List EnvVar) : List EnvVar :=
  if getIndexOfEnv env envOTELTracesSampler = -1 ∧ newrelic.spec.sampler.samplerType ≠ "" then
    if getIndexOfEnv env envOTELTracesSamplerArg = -1 then
      let env1 := env ++ [{ name := envOTELTracesSampler,
                            value := newrelic.spec.sampler.samplerType }]
      if newrelic.spec.sampler.argument ≠ "" then
        env1 ++ [{ name := envOTELTracesSamplerArg,
                   value := newrelic.spec.sampler.argument }]
      else env1
    else env
  else env

/-- Final reordering (sdk.go lines 277-284): move the
resource-attributes variable to the end of the list. -/
def sdkMoveStep (env : List EnvVar) : List EnvVar :=
  moveEnvToListEnd env (getIndexOfEnv env envOTELResourceAttrs)

/-- injectCommonSDKConfig (sdk.go lines 170-287): the blocks above in
source order, operating on the agent container's env list while the
attribute map is computed from the application container's index. -/
def injectCommonSDKConfig (client : GetClient) (fuel : Nat)
    (newrelic : Instrumentation) (ns : K8sNamespace) (pod : Pod)
    (agentIndex : Nat) (appIndex : Nat) : Pod :=
  let env0 := (pod.spec.containers.getD agentIndex default).env
  let resourceMap := createResourceMap client fuel newrelic ns pod appIndex
  let env1 := sdkSvcNameStep pod resourceMap appIndex env0
  let env2 := sdkEndpointStep newrelic env1
  let s3 := sdkPodNameStep (env2, resourceMap)
  let s4 := sdkPodUIDStep newrelic s3
  let s5 := sdkVersionStep pod appIndex s4
  let s6 := sdkNodeNameStep s5
  let env7 := sdkResourceAttrsStep s6
  let env8 := sdkPropagatorsStep newrelic env7
  let env9 := sdkSamplerStep newrelic env8
  let env10 := sdkMoveStep env9
  setContainerEnv pod agentIndex env10

/-- injectCommonEnvVar (sdk.go lines 152-161): append each declared
common env var that is not already present. -/
def injectCommonEnvVar (newrelic : Instrumentation) (pod : Pod) (index : Nat) : Pod :=
  let env := newrelic.spec.env.foldl
    (fun env e => if getIndexOfEnv env e.name = -1 then env ++ [e] else env)
    (pod.spec.containers.getD index default).env
  setContainerEnv pod index env

/-- injectNewrelicConfig (sdk.go lines 289-321): app name, license key
secret reference (optional), and labels marker, each insert-if-absent. -/
def injectNewrelicConfig (client : GetClient) (fuel : Nat)
    (newrelic : Instrumentation) (ns : K8sNamespace) (pod : Pod) (index : Nat) : Pod :=
  let env0 := (pod.spec.containers.getD index default).env
  let resourceMap := createResourceMap client fuel newrelic ns pod index
  let env1 :=
    if getIndexOfEnv env0 envNewRelicAppName = -1 then
      env0 ++ [{ name := envNewRelicAppName,
                 value := chooseServiceName pod resourceMap index }]
    else env0
  let env2 :=
    if getIndexOfEnv env1 envNewRelicLicenseKey = -1 then
      env1 ++ [{ name := envNewRelicLicenseKey,
                 valueFrom := some (EnvVarSource.secretKeyRef
                   "newrelic-key-secret" "new_relic_license_key" true) }]
    else env1
  let env3 :=
    if getIndexOfEnv env2 envNewRelicLabels = -1 then
      env2 ++ [{ name := "NEW_RELIC_LABELS", value := "operator:auto-injection" }]
    else env2
  setContainerEnv pod index env3

/-- The container-search loop duplicated verbatim in inject
(sdk.go lines 56-61) and getContainerIndex (sdk.go lines 142-147):
start at 0 and overwrite the index on every name match, so the loop
keeps the last matching index and falls back to 0 when nothing
matches. -/
def containerSearchIdx (containers : List Container) (containerName : String) : Nat :=
  (containers.foldl
    (fun (p : Nat × Nat) c =>
      (if c.name == containerName then p.2 else p.1, p.2 + 1))
    (0, 0)).1

/-- getContainerIndex (sdk.go lines 139-150). -/
def getContainerIndex (containerName : String) (pod : Pod) : Nat :=
  containerSearchIdx pod.spec.containers containerName

/-- languageInstrumentations: one optional Instrumentation per language. -/
structure LanguageInstrumentations where
  java : Option Instrumentation := none
  nodeJS : Option Instrumentation := none
  python : Option Instrumentation := none
  dotNet : Option Instrumentation := none
  php : Option Instrumentation := none
  go : Option Instrumentation := none

/-- External per-language injector collaborators (package apm): each
returns the possibly mutated pod together with an optional error, the
Go (pod, err) pair.  The Go-language injector takes no container
index. -/
structure ApmInjectors where
  injectJavaagent : LangSpec → Pod → Nat → Pod × Option String
  injectNodeJSSDK : LangSpec → Pod → Nat → Pod × Option String
  injectPythonSDK : LangSpec → Pod → Nat → Pod × Option String
  injectDotNetSDK : LangSpec → Pod → Nat → Pod × Option String
  injectPhpagent : LangSpec → Pod → Nat → Pod × Option String
  injectGoSDK : LangSpec → Pod → Pod × Option String

/-- Name of the annotation naming the Go target container (the constant
lives outside src/). -/
def annotInjectGoContainerName : String :=
  "instrumentation.newrelic.com/go-container-names"

/-- Capability for the repository's annotation lookup helper (its
definition is outside src/): namespace metadata, pod metadata,
annotation name to value. -/
abbrev AnnotValue := ObjectMeta → ObjectMeta → String → String

/-- inject (sdk.go lines 49-137): early return on an empty container
list; last-match-or-0 search for the configured container; one
sequential branch per language, each delegating to the external
injector and, on success, stamping the common configuration.  The Go
branch targets the freshly appended sidecar container (last index) for
common config while the attribute map uses application container
index 0. -/
def inject (apm : ApmInjectors) (annotValue : AnnotValue) (client : GetClient)
    (fuel : Nat) (insts : LanguageInstrumentations) (ns : K8sNamespace)
    (pod : Pod) (containerName : String) : Pod :=
  if pod.spec.containers.length < 1 then pod
  else
    let index := containerSearchIdx pod.spec.containers containerName
    let pod :=
      match insts.java with
      | some newrelic =>
        let r := apm.injectJavaagent newrelic.spec.java pod index
        match r.2 with
        | some _ => r.1
        | none => injectNewrelicConfig client fuel newrelic ns r.1 index
      | none => pod
    let pod :=
      match insts.nodeJS with
      | some newrelic =>
        let r := apm.injectNodeJSSDK newrelic.spec.nodeJS pod index
        match r.2 with
        | some _ => r.1
        | none => injectNewrelicConfig client fuel newrelic ns r.1 index
      | none => pod
    let pod :=
      match insts.python with
      | some newrelic =>
        let r := apm.injectPythonSDK newrelic.spec.python pod index
        match r.2 with
        | some _ => r.1
        | none => injectNewrelicConfig client fuel newrelic ns r.1 index
      | none => pod
    let pod :=
      match insts.dotNet with
      | some newrelic =>
        let r := apm.injectDotNetSDK newrelic.spec.dotNet pod index
        match r.2 with
        | some _ => r.1
        | none => injectNewrelicConfig client fuel newrelic ns r.1 index
      | none => pod
    let pod :=
      match insts.php with
      | some newrelic =>
        let r := apm.injectPhpagent newrelic.spec.php pod index
        match r.2 with
        | some _ => r.1
        | none => injectNewrelicConfig client fuel newrelic ns r.1 index
      | none => pod
    let pod :=
      match insts.go with
      | some newrelic =>
        let goContainers := annotValue ns.metadata pod.metadata annotInjectGoContainerName
        let _goIndex := getContainerIndex goContainers pod
        let r := apm.injectGoSDK newrelic.spec.go pod
        match r.2 with
        | some _ => r.1
        | none =>
          let pod1 := injectCommonEnvVar newrelic r.1 (r.1.spec.containers.length - 1)
          injectCommonSDKConfig client fuel newrelic ns pod1
            (pod1.spec.containers.length - 1) 0
      | none => pod
    pod

/-- Recognized env-name vendor prefixes
(instrumentation_webhook.go lines 37-38). -/
def envNewRelicPfx : String := "NEW_RELIC_"

/-- Second recognized vendor code for env names. -/
def envOtelPfx : String := "OTEL_"

/-- Error message produced for an offending variable
(instrumentation_webhook.go line 150). -/
def envNameErrMsg (name : String) : String :=
  "env name should start with \x22NEW_RELIC_\x22 or \x22OTEL_\x22: " ++ name

/-- validateEnv (instrumentation_webhook.go lines 147-154): first
declared variable whose name carries neither vendor name-start is
reported as an error; none otherwise. -/
def validateEnv : List EnvVar → Option String
  | [] => none
  | env :: rest =>
    if ¬ goHasPfx env.name envNewRelicPfx ∧ ¬ goHasPfx env.name envOtelPfx then
      some (envNameErrMsg env.name)
    else validateEnv rest

/-- validate (instrumentation_webhook.go lines 119-145): the common env
list and every per-language env list, in source order, first error
wins. -/
def validate (r : Instrumentation) : Option String :=
  match validateEnv r.spec.env with
  | some err => some err
  | none =>
    match validateEnv r.spec.java.env with
    | some err => some err
    | none =>
      match validateEnv r.spec.nodeJS.env with
      | some err => some err
      | none =>
        match validateEnv r.spec.python.env with
        | some err => some err
        | none =>
          match validateEnv r.spec.dotNet.env with
          | some err => some err
          | none =>
            match validateEnv r.spec.php.env with
            | some err => some err
            | none =>
              match validateEnv r.spec.go.env with
              | some err => some err
              | none => none

/-- Concatenation of all env lists validate inspects, in source order. -/
def allDeclaredEnvs (r : Instrumentation) : List EnvVar :=
  r.spec.env ++ r.spec.java.env ++ r.spec.nodeJS.env ++ r.spec.python.env ++
    r.spec.dotNet.env ++ r.spec.php.env ++ r.spec.go.env

/-- Predicate: the env name carries one of the two recognized vendor
name-starts. -/
def goodEnvName (e : EnvVar) : Bool :=
  goHasPfx e.name envNewRelicPfx || goHasPfx e.name envOtelPfx

/-- Count of variables with a given name in an env list. -/
def countEnvName (envs : List EnvVar) (name : String) : Nat :=
  envs.countP (fun e => e.name == name)

/-- Spec-level description of the container search: index of the last
name match, if any. -/
def lastMatchIdx? (containerName : String) : List Container → Option Nat
  | [] => none
  | c :: rest =>
    match lastMatchIdx? containerName rest with
    | some j => some (j + 1)
    | none => if c.name == containerName then some 0 else none

/-- Spec-level fallback chain: the first non-empty string in the list,
or the fallback when all are empty. -/
def firstNonEmptyOr (fallback : String) : List String → String
  | [] => fallback
  | s :: rest => if s ≠ "" then s else firstNonEmptyOr fallback rest

/-- Spec-level restatement of the version parser, phrased on the image
string alone. -/
def versionOfImage (image : String) : String :=
  let parts := goSplitChar image ':'
  let tag := parts.getLastD ""
  if goContains tag "/" then "" else tag

/-- The chain of per-list validations as a fold over the list of env
lists; validate is definitionally this chain on its seven lists. -/
def validateAll : List (List EnvVar) → Option String
  | [] => none
  | l :: rest =>
    match validateEnv l with
    | some err => some err
    | none => validateAll rest

/-- The seven env lists validate inspects, in source order. -/
def validateLists (r : Instrumentation) : List (List EnvVar) :=
  [r.spec.env, r.spec.java.env, r.spec.nodeJS.env, r.spec.python.env,
    r.spec.dotNet.env, r.spec.php.env, r.spec.go.env]

/-- Remote lookup capability whose every attempt reports not-found
(the pods below carry no ReplicaSet owner, so it is never consulted
except where a claim exercises the failure path). -/
def noClient : GetClient := fun _ _ _ => GetResult.notFound

/-- Concrete namespace object used to evaluate the engine. -/
def nsDemo : K8sNamespace := { metadata := { name := "ns" } }

/-- Value of the named variable in the given container of a pod. -/
def envVarValue (pod : Pod) (cidx : Nat) (name : String) : String :=
  match (pod.spec.containers.getD cidx default).env.find?
      (fun e => e.name == name) with
  | some e => e.value
  | none => ""

/-- Keys of a comma-joined key=value resource-attributes string, parsed
the way createResourceMap parses it. -/
def attrKeysOf (value : String) : List String :=
  (goSplitChar value ',').map (fun kv => (goSplitChar (goTrim kv) '=').getD 0 "")

/-- Pod with one container and no prior configuration. -/
def c1Pod : Pod :=
  { metadata := { name := "mypod" },
    spec := { containers := [{ name := "app" }] } }

/-- First engine invocation on c1Pod. -/
def c1Run1 : Pod := injectCommonSDKConfig noClient 5 {} nsDemo c1Pod 0 0

/-- Second engine invocation, fed the first invocation's output. -/
def c1Run2 : Pod := injectCommonSDKConfig noClient 5 {} nsDemo c1Run1 0 0

/-- Pod whose container already declares k8s.pod.name=mypod in the
resource-attributes variable. -/
def c2Pod : Pod :=
  { spec := { containers :=
      [{ name := "app", env := [{ name := envOTELResourceAttrs, value := "k8s.pod.name=mypod" }] }] } }

/-- Engine run on c2Pod. -/
def c2Run : Pod := injectCommonSDKConfig noClient 5 {} nsDemo c2Pod 0 0

/-- Pod whose container names the resource-attributes variable twice
(the runtime does not enforce unique names). -/
def c3Pod : Pod :=
  { spec := { containers :=
      [{ name := "app", env :=
          [{ name := envOTELResourceAttrs, value := "foo=bar" },
           { name := envOTELResourceAttrs, value := "baz=qux" }] }] } }

/-- Engine run on c3Pod. -/
def c3Run : Pod := injectCommonSDKConfig noClient 5 {} nsDemo c3Pod 0 0

/-- Instrumentation whose user-declared attribute overrides carry an
empty value. -/
def c4Inst : Instrumentation :=
  { spec := { resource := { attributes := [("custom.attr", "")] } } }

/-- Single-container pod for the attribute-map evaluation. -/
def c4Pod : Pod := { spec := { containers := [{ name := "app" }] } }

/-- Pod with two distinct containers sharing the name "a". -/
def c6Pod : Pod :=
  { spec := { containers := [{ name := "a" }, { name := "b" },
    { name := "a" }] } }

/-- Single-container pod for the service-name evaluation. -/
def c7Pod : Pod := { spec := { containers := [{ name := "ctr" }] } }

/-- Attribute map declaring only a Job name. -/
def c7Map : SMap := [(k8sJobNameKey, "job1")]

/-- Pod with the two images of the version-guard property. -/
def c8Pod : Pod :=
  { spec := { containers := [{ name := "x", image := "registry:5000/app" },
                             { name := "y", image := "app:1.2.3" }] } }

/-- Instrumentation whose declared env names all carry a recognized
vendor name-start. -/
def c9Good : Instrumentation :=
  { spec := { env := [{ name := "NEW_RELIC_LABELS", value := "x" }],
              java := { env := [{ name := "OTEL_SERVICE_NAME" }] } } }

/-- Per-language injectors that return the pod untouched and report
success. -/
def trivialApm : ApmInjectors :=
  { injectJavaagent := fun _ p _ => (p, none),
    injectNodeJSSDK := fun _ p _ => (p, none),
    injectPythonSDK := fun _ p _ => (p, none),
    injectDotNetSDK := fun _ p _ => (p, none),
    injectPhpagent := fun _ p _ => (p, none),
    injectGoSDK := fun _ p => (p, none) }

/-- Annotation lookup returning no configured container name. -/
def trivialAnnot : AnnotValue := fun _ _ _ => ""

/-- Pod with an empty container list. -/
def c10Pod : Pod := { metadata := { name := "empty" } }

section ListLemmas

variable {α : Type} {β : Type}

theorem getD_eq_get (l : List α) (i : Nat) (d : α) (h : i < l.length) :
    l.getD i d = l.get ⟨i, h⟩ := by
  induction l generalizing i with
  | nil => simp at h
  | cons a rest ih =>
    cases i with
    | zero => rfl
    | succ j => exact ih j (by simpa using h)

theorem getD_set_self (l : List α) (i : Nat) (v d : α) (h : i < l.length) :
    (l.set i v).getD i d = v := by
  induction l generalizing i with
  | nil => simp at h
  | cons a rest ih =>
    cases i with
    | zero => rfl
    | succ j => exact ih j (by simpa using h)

theorem foldl_preserve (P : β → Prop) (f : β → α → β) (l : List α) (b : β)
    (h0 : P b) (hf : ∀ b a, a ∈ l → P b → P (f b a)) : P (l.foldl f b) := by
  induction l generalizing b with
  | nil => exact h0
  | cons a rest ih =>
    exact ih (f b a) (hf b a (by simp) h0)
      (fun b' a' ha' hb' => hf b' a' (by simp [ha']) hb')

end ListLemmas

theorem mem_smapInsert (m : SMap) (k v : String) (q : String × String)
    (h : q ∈ smapInsert m k v) : q = (k, v) ∨ q ∈ m := by
  unfold smapInsert at h
  split at h
  · rcases List.mem_map.1 h with ⟨p, hp, hq⟩
    by_cases hk : (p.1 == k) = true
    · simp [hk] at hq
      exact Or.inl hq.symm
    · simp [hk] at hq
      exact Or.inr (hq ▸ hp)
  · rcases List.mem_append.1 h with h1 | h1
    · exact Or.inr h1
    · simp at h1
      exact Or.inl h1

theorem countEnvName_nil (n : String) : countEnvName [] n = 0 := rfl

theorem countEnvName_append_one (l : List EnvVar) (v : EnvVar) (n : String) :
    countEnvName (l ++ [v]) n =
      countEnvName l n + (if (v.name == n) = true then 1 else 0) := by
  simp [countEnvName, List.countP_append, List.countP_cons]

theorem findEnvIdx?_eq_none_iff (envs : List EnvVar) (n : String) :
    findEnvIdx? envs n = none ↔ countEnvName envs n = 0 := by
  induction envs with
  | nil => simp [findEnvIdx?, countEnvName]
  | cons e rest ih =>
    by_cases he : (e.name == n) = true
    · simp [findEnvIdx?, he, countEnvName, List.countP_cons]
    · simp only [findEnvIdx?, he, if_false, countEnvName, List.countP_cons] at ih ⊢
      simp [he, ih, countEnvName]

theorem findEnvIdx?_lt_length (envs : List EnvVar) (n : String) (i : Nat)
    (h : findEnvIdx? envs n = some i) : i < envs.length := by
  induction envs generalizing i with
  | nil => simp [findEnvIdx?] at h
  | cons e rest ih =>
    simp only [findEnvIdx?] at h
    by_cases he : (e.name == n) = true
    · rw [if_pos he] at h
      injection h with h'
      subst h'
      simp
    · rw [if_neg he] at h
      cases hf : findEnvIdx? rest n with
      | none => rw [hf] at h; simp at h
      | some j =>
        rw [hf] at h
        simp only [Option.map_some'] at h
        injection h with h'
        subst h'
        have := ih j hf
        simp only [List.length_cons]
        omega

theorem findEnvIdx?_append_of_none (l : List EnvVar) (v : EnvVar) (n : String)
    (h : findEnvIdx? l n = none) :
    findEnvIdx? (l ++ [v]) n =
      if (v.name == n) = true then some l.length else none := by
  induction l with
  | nil => simp [findEnvIdx?]
  | cons e rest ih =>
    simp only [findEnvIdx?] at h
    by_cases he : (e.name == n) = true
    · rw [if_pos he] at h
      simp at h
    · rw [if_neg he] at h
      have hrest : findEnvIdx? rest n = none := by
        cases hf : findEnvIdx? rest n with
        | none => rfl
        | some j => rw [hf] at h; simp at h
      rw [List.cons_append]
      have hunf : findEnvIdx? (e :: (rest ++ [v])) n
          = if (e.name == n) = true then some 0
            else (findEnvIdx? (rest ++ [v]) n).map (fun i => i + 1) := rfl
      rw [hunf, if_neg he, ih hrest]
      by_cases hv : (v.name == n) = true
      · rw [if_pos hv, if_pos hv]
        simp
      · rw [if_neg hv, if_neg hv]
        simp

theorem findEnvIdx?_count_pos (envs : List EnvVar) (n : String) (i : Nat)
    (h : findEnvIdx? envs n = some i) : 0 < countEnvName envs n := by
  by_contra hc
  have h0 : countEnvName envs n = 0 := by omega
  rw [← findEnvIdx?_eq_none_iff] at h0
  simp [h0] at h

theorem countEnvName_set_same_name (l : List EnvVar) (i : Nat) (v : EnvVar)
    (n : String) (h : i < l.length) (hname : (l.getD i default).name = v.name) :
    countEnvName (l.set i v) n = countEnvName l n := by
  induction l generalizing i with
  | nil => simp at h
  | cons e rest ih =>
    cases i with
    | zero =>
      simp only [List.getD, List.getElem?_cons_zero, Option.getD_some] at hname
      simp [List.set, countEnvName, List.countP_cons, ← hname]
    | succ j =>
      have hj : j < rest.length := by simpa using h
      have hname' : (rest.getD j default).name = v.name := by
        simpa [List.getD] using hname
      simp only [List.set, countEnvName, List.countP_cons]
      have := ih j hj hname'
      simp only [countEnvName] at this
      omega

theorem count_one_decomp (l : List EnvVar) (n : String)
    (h : countEnvName l n = 1) :
    ∃ j v, findEnvIdx? l n = some j ∧ l[j]? = some v ∧ (v.name == n) = true ∧
      countEnvName (l.eraseIdx j) n = 0 ∧ (l.eraseIdx j).length + 1 = l.length := by
  induction l with
  | nil => simp [countEnvName] at h
  | cons e rest ih =>
    by_cases he : (e.name == n) = true
    · refine ⟨0, e, ?_, by simp, he, ?_, ?_⟩
      · simp [findEnvIdx?, he]
      · have : countEnvName rest n = 0 := by
          simp only [countEnvName, List.countP_cons, he, if_pos] at h
          simp only [countEnvName]
          omega
        simpa [List.eraseIdx] using this
      · simp [List.eraseIdx]
    · have hrest : countEnvName rest n = 1 := by
        simp only [countEnvName, List.countP_cons, he, if_neg] at h
        simp only [countEnvName]
        simpa using h
      rcases ih hrest with ⟨j, v, hfind, hget, hname, hcount, hlen⟩
      refine ⟨j + 1, v, ?_, ?_, hname, ?_, ?_⟩
      · simp [findEnvIdx?, he, hfind]
      · simpa using hget
      · simpa [List.eraseIdx, countEnvName, List.countP_cons, he] using hcount
      · simp only [List.eraseIdx, List.length_cons]
        omega

theorem moveEnd_count_one (l : List EnvVar) (n : String)
    (h : countEnvName l n = 1) :
    getIndexOfEnv (moveEnvToListEnd l (getIndexOfEnv l n)) n = (l.length : Int) - 1
    ∧ (moveEnvToListEnd l (getIndexOfEnv l n)).length = l.length := by
  rcases count_one_decomp l n h with ⟨j, v, hfind, hget, hname, hcount, hlen⟩
  have hj : j < l.length := findEnvIdx?_lt_length l n j hfind
  have hidx : getIndexOfEnv l n = (j : Int) := by
    simp [getIndexOfEnv, hfind]
  have hcond : 0 ≤ (j : Int) ∧ (j : Int) < (l.length : Int) := by
    constructor
    · exact Int.ofNat_nonneg j
    · exact_mod_cast hj
  have hmove : moveEnvToListEnd l ((j : Int)) = l.eraseIdx j ++ [v] := by
    unfold moveEnvToListEnd
    rw [if_pos hcond]
    have htoNat : ((j : Int)).toNat = j := Int.toNat_ofNat j
    rw [htoNat, hget]
  have hfind2 : findEnvIdx? (l.eraseIdx j ++ [v]) n = some (l.eraseIdx j).length := by
    have hnone : findEnvIdx? (l.eraseIdx j) n = none :=
      (findEnvIdx?_eq_none_iff _ n).2 hcount
    rw [findEnvIdx?_append_of_none _ _ _ hnone, if_pos hname]
  constructor
  · rw [hidx, hmove]
    simp only [getIndexOfEnv, hfind2]
    have : (l.eraseIdx j).length = l.length - 1 := by omega
    rw [this]
    have hpos : 1 ≤ l.length := by omega
    omega
  · rw [hidx, hmove]
    simp only [List.length_append, List.length_cons, List.length_nil]
    omega

theorem getIndexOfEnv_eq_neg_one_iff (envs : List EnvVar) (n : String) :
    getIndexOfEnv envs n = -1 ↔ findEnvIdx? envs n = none := by
  unfold getIndexOfEnv
  cases hf : findEnvIdx? envs n with
  | none => simp
  | some i => simp

theorem countEnvName_append_name_ne (l : List EnvVar) (nm val : String)
    (vf : Option EnvVarSource) (n : String) (h : (nm == n) = false) :
    countEnvName (l ++ [{ name := nm, value := val, valueFrom := vf }]) n
      = countEnvName l n := by
  rw [countEnvName_append_one]
  simp [h]

theorem countEnvName_append_name_eq (l : List EnvVar) (nm val : String)
    (vf : Option EnvVarSource) (n : String) (h : (nm == n) = true) :
    countEnvName (l ++ [{ name := nm, value := val, valueFrom := vf }]) n
      = countEnvName l n + 1 := by
  rw [countEnvName_append_one]
  simp [h]

theorem countEnvName_set_value (l : List EnvVar) (j : Nat) (newVal : String)
    (n : String) (h : j < l.length) :
    countEnvName (l.set j { l.getD j default with value := newVal }) n
      = countEnvName l n :=
  countEnvName_set_same_name l j _ n h rfl

theorem countAttrs_svcNameStep (pod : Pod) (m : SMap) (appIndex : Nat)
    (env : List EnvVar) :
    countEnvName (sdkSvcNameStep pod m appIndex env) envOTELResourceAttrs
      = countEnvName env envOTELResourceAttrs := by
  unfold sdkSvcNameStep
  split
  · rw [countEnvName_append_name_ne _ _ _ _ _ (by decide)]
  · rfl

theorem countAttrs_endpointStep (newrelic : Instrumentation) (env : List EnvVar) :
    countEnvName (sdkEndpointStep newrelic env) envOTELResourceAttrs
      = countEnvName env envOTELResourceAttrs := by
  unfold sdkEndpointStep
  split
  · split
    · rw [countEnvName_append_name_ne _ _ _ _ _ (by decide)]
    · rfl
  · rfl

theorem countAttrs_podNameStep (s : List EnvVar × SMap) :
    countEnvName (sdkPodNameStep s).1 envOTELResourceAttrs
      = countEnvName s.1 envOTELResourceAttrs := by
  unfold sdkPodNameStep
  split
  · rw [countEnvName_append_name_ne _ _ _ _ _ (by decide)]
  · rfl

theorem countAttrs_podUIDStep (newrelic : Instrumentation) (s : List EnvVar × SMap) :
    countEnvName (sdkPodUIDStep newrelic s).1 envOTELResourceAttrs
      = countEnvName s.1 envOTELResourceAttrs := by
  unfold sdkPodUIDStep
  split
  · split
    · rw [countEnvName_append_name_ne _ _ _ _ _ (by decide)]
    · rfl
  · rfl

theorem versionStep_fst (pod : Pod) (appIndex : Nat) (s : List EnvVar × SMap) :
    (sdkVersionStep pod appIndex s).1 = s.1 := by
  simp only [sdkVersionStep]
  split
  · split <;> rfl
  · rfl

theorem countAttrs_nodeNameStep (s : List EnvVar × SMap) :
    countEnvName (sdkNodeNameStep s).1 envOTELResourceAttrs
      = countEnvName s.1 envOTELResourceAttrs := by
  unfold sdkNodeNameStep
  split
  · rw [countEnvName_append_name_ne _ _ _ _ _ (by decide)]
  · rfl

theorem countAttrs_resourceAttrsStep (s : List EnvVar × SMap)
    (h : countEnvName s.1 envOTELResourceAttrs ≤ 1) :
    countEnvName (sdkResourceAttrsStep s) envOTELResourceAttrs = 1 := by
  simp only [sdkResourceAttrsStep]
  split
  · rename_i hidx
    have hnone : findEnvIdx? s.1 envOTELResourceAttrs = none :=
      (getIndexOfEnv_eq_neg_one_iff _ _).1 hidx
    have h0 : countEnvName s.1 envOTELResourceAttrs = 0 :=
      (findEnvIdx?_eq_none_iff _ _).1 hnone
    rw [countEnvName_append_name_eq _ _ _ _ _ (by decide), h0]
  · rename_i hidx
    cases hf : findEnvIdx? s.1 envOTELResourceAttrs with
    | none => exact absurd ((getIndexOfEnv_eq_neg_one_iff _ _).2 hf) hidx
    | some j =>
      have hj : j < s.1.length := findEnvIdx?_lt_length _ _ j hf
      have hpos : 0 < countEnvName s.1 envOTELResourceAttrs :=
        findEnvIdx?_count_pos _ _ j hf
      have h1 : countEnvName s.1 envOTELResourceAttrs = 1 := by omega
      have hidxval : getIndexOfEnv s.1 envOTELResourceAttrs = (j : Int) := by
        simp [getIndexOfEnv, hf]
      have htoNat : (getIndexOfEnv s.1 envOTELResourceAttrs).toNat = j := by
        rw [hidxval]
        exact Int.toNat_ofNat j
      rw [htoNat]
      rw [countEnvName_set_value _ _ _ _ hj, h1]

theorem countAttrs_propagatorsStep (newrelic : Instrumentation) (env : List EnvVar) :
    countEnvName (sdkPropagatorsStep newrelic env) envOTELResourceAttrs
      = countEnvName env envOTELResourceAttrs := by
  unfold sdkPropagatorsStep
  split
  · rw [countEnvName_append_name_ne _ _ _ _ _ (by decide)]
  · rfl

theorem countAttrs_samplerStep (newrelic : Instrumentation) (env : List EnvVar) :
    countEnvName (sdkSamplerStep newrelic env) envOTELResourceAttrs
      = countEnvName env envOTELResourceAttrs := by
  unfold sdkSamplerStep
  split
  · split
    · split
      · rw [countEnvName_append_name_ne _ _ _ _ _ (by decide),
          countEnvName_append_name_ne _ _ _ _ _ (by decide)]
      · rw [countEnvName_append_name_ne _ _ _ _ _ (by decide)]
    · rfl
  · rfl

theorem setContainerEnv_env (pod : Pod) (i : Nat) (env : List EnvVar)
    (h : i < pod.spec.containers.length) :
    ((setContainerEnv pod i env).spec.containers.getD i default).env = env := by
  unfold setContainerEnv
  simp only
  rw [getD_set_self _ _ _ _ (by simpa using h)]

theorem pipelineCount (newrelic : Instrumentation) (pod : Pod) (appIndex : Nat)
    (m : SMap) (env0 : List EnvVar)
    (h : countEnvName env0 envOTELResourceAttrs ≤ 1) :
    countEnvName
      (sdkSamplerStep newrelic
        (sdkPropagatorsStep newrelic
          (sdkResourceAttrsStep
            (sdkNodeNameStep
              (sdkVersionStep pod appIndex
                (sdkPodUIDStep newrelic
                  (sdkPodNameStep
                    (sdkEndpointStep newrelic (sdkSvcNameStep pod m appIndex env0),
                      m))))))))
      envOTELResourceAttrs = 1 := by
  rw [countAttrs_samplerStep, countAttrs_propagatorsStep]
  apply countAttrs_resourceAttrsStep
  rw [countAttrs_nodeNameStep, versionStep_fst, countAttrs_podUIDStep,
    countAttrs_podNameStep]
  dsimp only
  rw [countAttrs_endpointStep, countAttrs_svcNameStep]
  exact h

theorem injectSDK_attrs_last (client : GetClient) (fuel : Nat)
    (newrelic : Instrumentation) (ns : K8sNamespace) (pod : Pod)
    (agentIndex appIndex : Nat) (h1 : agentIndex < pod.spec.containers.length)
    (h2 : countEnvName (pod.spec.containers.getD agentIndex default).env
      envOTELResourceAttrs ≤ 1) :
    getIndexOfEnv
      ((injectCommonSDKConfig client fuel newrelic ns pod agentIndex
          appIndex).spec.containers.getD agentIndex default).env
      envOTELResourceAttrs
    = ((((injectCommonSDKConfig client fuel newrelic ns pod agentIndex
          appIndex).spec.containers.getD agentIndex default).env).length : Int) - 1 := by
  have hc := pipelineCount newrelic pod appIndex
    (createResourceMap client fuel newrelic ns pod appIndex)
    (pod.spec.containers.getD agentIndex default).env h2
  simp only [injectCommonSDKConfig, sdkMoveStep]
  rw [setContainerEnv_env _ _ _ h1]
  obtain ⟨hidx, hlen⟩ := moveEnd_count_one _ envOTELResourceAttrs hc
  rw [hlen]
  exact hidx

theorem stage1_mem (attrs : List (String × String)) (existingRes : List String)
    (q : String × String)
    (hq : q ∈ attrs.foldl
      (fun res p => if existingRes.contains p.1 then res else smapInsert res p.1 p.2)
      []) :
    q ∈ attrs := by
  refine foldl_preserve (fun m => ∀ r ∈ m, r ∈ attrs) _ attrs [] (by simp) ?_ q hq
  intro b a ha hb r hr
  split at hr
  · exact hb r hr
  · rcases mem_smapInsert b a.1 a.2 r hr with h | h
    · simpa [h] using ha
    · exact hb r h

theorem stage2_mem (k8s : SMap) (existingRes : List String) (init : SMap)
    (P : String × String → Prop) (hinit : ∀ q ∈ init, P q)
    (hnonempty : ∀ q : String × String, q.2 ≠ "" → P q)
    (q : String × String)
    (hq : q ∈ k8s.foldl
      (fun res p =>
        if ¬ existingRes.contains p.1 ∧ p.2 ≠ "" then smapInsert res p.1 p.2 else res)
      init) :
    P q := by
  refine foldl_preserve (fun m => ∀ r ∈ m, P r) _ k8s init hinit ?_ q hq
  intro b a ha hb r hr
  split at hr
  · rename_i hcond
    rcases mem_smapInsert b a.1 a.2 r hr with h | h
    · exact hnonempty r (by simpa [h] using hcond.2)
    · exact hb r h
  · exact hb r hr

theorem createResourceMap_entries (client : GetClient) (fuel : Nat)
    (newrelic : Instrumentation) (ns : K8sNamespace) (pod : Pod) (index : Nat)
    (p : String × String)
    (hp : p ∈ createResourceMap client fuel newrelic ns pod index) :
    p.2 ≠ "" ∨ p ∈ newrelic.spec.resource.attributes := by
  simp only [createResourceMap] at hp
  refine stage2_mem _ _ _
    (fun q => q.2 ≠ "" ∨ q ∈ newrelic.spec.resource.attributes) ?_ ?_ p hp
  · intro q hq
    exact Or.inr (stage1_mem _ _ q hq)
  · intro q hq
    exact Or.inl hq

theorem retry_notFound (steps k : Nat) :
    retryOnError steps (fun _ => GetResult.notFound) k = GetResult.notFound := by
  induction steps generalizing k with
  | zero => rfl
  | succ s ih =>
    simp only [retryOnError]
    split
    · rfl
    · exact ih (k + 1)

theorem addParent_rs_notFound (fuel : Nat) (uid : Bool) (ns : K8sNamespace)
    (mName mUID rsName rsUID : String) (res : SMap) :
    addParentResourceLabels (fun _ _ _ => GetResult.notFound) fuel uid ns
      { name := mName, uid := mUID,
        ownerReferences := [{ kind := "ReplicaSet", name := rsName, uid := rsUID }],
        annots := [] } res
    = (if uid then
        smapInsert (smapInsert res k8sReplicaSetNameKey rsName)
          k8sReplicaSetUIDKey rsUID
      else smapInsert res k8sReplicaSetNameKey rsName) := by
  simp only [addParentResourceLabels, addParentOwners, List.foldl]
  rw [if_pos (by decide : (goToLower "ReplicaSet" == "replicaset") = true)]
  cases fuel with
  | zero => rfl
  | succ f => rfl

/-- The container-search loop with explicit accumulator: relates the
loop to the index of the last match. -/
theorem searchLoop_general (n : String) (l : List Container) (acc k : Nat) :
    (l.foldl
      (fun (p : Nat × Nat) c =>
        (if c.name == n then p.2 else p.1, p.2 + 1))
      (acc, k)).1
    = match lastMatchIdx? n l with
      | some j => k + j
      | none => acc := by
  induction l generalizing acc k with
  | nil => rfl
  | cons c rest ih =>
    simp only [List.foldl]
    rw [ih]
    simp only [lastMatchIdx?]
    cases hf : lastMatchIdx? n rest with
    | some j =>
      simp only [hf]
      ring
    | none =>
      simp only [hf]
      by_cases hc : (c.name == n) = true
      · simp [hc]
      · simp [hc]

theorem containerSearchIdx_eq_lastMatch (containers : List Container)
    (n : String) :
    containerSearchIdx containers n = (lastMatchIdx? n containers).getD 0 := by
  unfold containerSearchIdx
  rw [searchLoop_general]
  cases hf : lastMatchIdx? n containers with
  | some j => simp
  | none => simp

theorem chooseServiceName_chain (pod : Pod) (resources : SMap) (index : Nat)
    (h : index < pod.spec.containers.length) :
    chooseServiceName pod resources index
      = firstNonEmptyOr (pod.spec.containers.get ⟨index, h⟩).name
          [smapGet resources k8sDeploymentNameKey,
           smapGet resources k8sStatefulSetNameKey,
           smapGet resources k8sJobNameKey,
           smapGet resources k8sCronJobNameKey,
           smapGet resources k8sPodNameKey] := by
  simp only [chooseServiceName, firstNonEmptyOr]
  rw [getD_eq_get _ _ _ h]

theorem chooseServiceVersion_eq (pod : Pod) (index : Nat)
    (h : index < pod.spec.containers.length) :
    chooseServiceVersion pod index
      = versionOfImage (pod.spec.containers.get ⟨index, h⟩).image := by
  simp only [chooseServiceVersion, versionOfImage]
  rw [getD_eq_get _ _ _ h]

theorem validate_eq_validateAll (r : Instrumentation) :
    validate r = validateAll (validateLists r) := rfl

theorem validateEnv_eq_none_iff (l : List EnvVar) :
    validateEnv l = none ↔ ∀ e ∈ l, goodEnvName e = true := by
  induction l with
  | nil => simp [validateEnv]
  | cons e rest ih =>
    have hunf : validateEnv (e :: rest)
        = if ¬ goHasPfx e.name envNewRelicPfx = true
            ∧ ¬ goHasPfx e.name envOtelPfx = true
          then some (envNameErrMsg e.name) else validateEnv rest := rfl
    by_cases hg : goodEnvName e = true
    · have hcond : ¬ (¬ goHasPfx e.name envNewRelicPfx = true
        ∧ ¬ goHasPfx e.name envOtelPfx = true) := by
        simp only [goodEnvName, Bool.or_eq_true] at hg
        tauto
      rw [hunf, if_neg hcond, ih]
      simp [hg]
    · have hcond : ¬ goHasPfx e.name envNewRelicPfx = true
        ∧ ¬ goHasPfx e.name envOtelPfx = true := by
        simp only [goodEnvName, Bool.or_eq_true] at hg
        tauto
      rw [hunf, if_pos hcond]
      simp only [goodEnvName] at hg
      constructor
      · intro hsome
        simp at hsome
      · intro hall
        exact absurd (hall e (by simp)) (by simpa [goodEnvName] using hg)

theorem validateEnv_some_mem (l : List EnvVar) (err : String)
    (h : validateEnv l = some err) :
    ∃ e, e ∈ l ∧ goodEnvName e = false ∧ err = envNameErrMsg e.name := by
  induction l with
  | nil => simp [validateEnv] at h
  | cons e rest ih =>
    simp only [validateEnv] at h
    split at h
    · rename_i hcond
      refine ⟨e, by simp, ?_, ?_⟩
      · simp only [goodEnvName, Bool.or_eq_false_iff]
        constructor
        · simp [hcond.1]
        · simp [hcond.2]
      · injection h with h'
        exact h'.symm
    · rcases ih h with ⟨e', he', hg, herr⟩
      exact ⟨e', by simp [he'], hg, herr⟩

theorem validateAll_none_iff (ls : List (List EnvVar)) :
    validateAll ls = none ↔ ∀ l ∈ ls, validateEnv l = none := by
  induction ls with
  | nil => simp [validateAll]
  | cons l rest ih =>
    simp only [validateAll]
    cases hv : validateEnv l with
    | none => simp [hv, ih]
    | some err => simp [hv]

theorem validateAll_some (ls : List (List EnvVar)) (err : String)
    (h : validateAll ls = some err) :
    ∃ l, l ∈ ls ∧ validateEnv l = some err := by
  induction ls with
  | nil => simp [validateAll] at h
  | cons l rest ih =>
    simp only [validateAll] at h
    split at h
    · rename_i herr
      injection h with h'
      exact ⟨l, by simp, by rw [herr, h']⟩
    · rcases ih h with ⟨l', hl', hv⟩
      exact ⟨l', by simp [hl'], hv⟩

theorem mem_allDeclaredEnvs_iff (r : Instrumentation) (e : EnvVar) :
    e ∈ allDeclaredEnvs r ↔ ∃ l, l ∈ validateLists r ∧ e ∈ l := by
  constructor
  · intro he
    simp only [allDeclaredEnvs, List.mem_append] at he
    rcases he with ((((((h | h) | h) | h) | h) | h) | h)
    · exact ⟨r.spec.env, by simp [validateLists], h⟩
    · exact ⟨r.spec.java.env, by simp [validateLists], h⟩
    · exact ⟨r.spec.nodeJS.env, by simp [validateLists], h⟩
    · exact ⟨r.spec.python.env, by simp [validateLists], h⟩
    · exact ⟨r.spec.dotNet.env, by simp [validateLists], h⟩
    · exact ⟨r.spec.php.env, by simp [validateLists], h⟩
    · exact ⟨r.spec.go.env, by simp [validateLists], h⟩
  · rintro ⟨l, hl, he⟩
    simp only [validateLists, List.mem_cons, List.not_mem_nil, or_false] at hl
    simp only [allDeclaredEnvs, List.mem_append]
    rcases hl with rfl | rfl | rfl | rfl | rfl | rfl | rfl <;> tauto

/-! Claim theorems. -/

set_option maxRecDepth 1000000 in
/-- C1: the spec asserts that running the injection engine a second time
on the pod produced by the first run (same spec, same container) yields
the same pod, injectCommonSDKConfig leaving an already-injected
environment list unchanged.  The code violates this on every input: the
downward-API fallback blocks re-append POD_NAME / NODE_NAME references
and re-extend the resource-attributes value on the second run.  This
theorem evaluates the engine at the failing input: the second run's
output differs from the first, and the NODE_NAME reference appears once
after run one but twice after run two. -/
theorem c1_second_run_changes_output :
    c1Run2 ≠ c1Run1
    ∧ countEnvName (c1Run1.spec.containers.getD 0 default).env envNodeName = 1
    ∧ countEnvName (c1Run2.spec.containers.getD 0 default).env envNodeName = 2 :=
  ⟨by decide, by decide, by decide⟩

set_option maxRecDepth 1000000 in
/-- C2: the spec asserts that a key k already declared in the
resource-attributes variable is never overwritten and never appears a
second time after injectCommonSDKConfig.  The code violates the second
part: with k8s.pod.name=mypod already declared, the downward-API
fallback re-emits k8s.pod.name=$(POD_NAME), so the key appears twice in
the variable's value.  This theorem evaluates the engine at the failing
input: the key occurs once before and twice after the run. -/
theorem c2_existing_key_reemitted :
    (attrKeysOf (envVarValue c2Pod 0 envOTELResourceAttrs)).count k8sPodNameKey = 1
    ∧ (attrKeysOf (envVarValue c2Run 0 envOTELResourceAttrs)).count k8sPodNameKey = 2 :=
  ⟨by decide, by decide⟩

set_option maxRecDepth 1000000 in
/-- C3 counterexample: the claim quantifies over every input environment
list, but when the input names the resource-attributes variable twice
(allowed: names are unique only by convention), the variable found by
getIndexOfEnv after injectCommonSDKConfig sits at index 0, not at
length - 1, even though it is present. -/
theorem c3_counterexample_duplicate_attrs_var :
    getIndexOfEnv (c3Run.spec.containers.getD 0 default).env envOTELResourceAttrs ≠ -1
    ∧ getIndexOfEnv (c3Run.spec.containers.getD 0 default).env envOTELResourceAttrs
      ≠ (((c3Run.spec.containers.getD 0 default).env).length : Int) - 1 :=
  ⟨by decide, by decide⟩

/-- C3 (amended): for every input pod whose target container names the
resource-attributes variable at most once, after injectCommonSDKConfig
returns, the index of that variable equals the environment list's
length minus one; moveEnvToListEnd places the element at the given
index last while preserving the other elements in order, and is a no-op
when the index is out of range. -/
theorem c3_amended_resource_attrs_last :
    (∀ (client : GetClient) (fuel : Nat) (newrelic : Instrumentation)
        (ns : K8sNamespace) (pod : Pod) (agentIndex appIndex : Nat),
      agentIndex < pod.spec.containers.length →
      countEnvName (pod.spec.containers.getD agentIndex default).env
        envOTELResourceAttrs ≤ 1 →
      getIndexOfEnv
        ((injectCommonSDKConfig client fuel newrelic ns pod agentIndex
            appIndex).spec.containers.getD agentIndex default).env
        envOTELResourceAttrs
      = ((((injectCommonSDKConfig client fuel newrelic ns pod agentIndex
            appIndex).spec.containers.getD agentIndex default).env).length : Int) - 1)
    ∧ (∀ (envs : List EnvVar) (i : Nat) (v : EnvVar),
        envs[i]? = some v →
        moveEnvToListEnd envs ((i : Int)) = envs.eraseIdx i ++ [v])
    ∧ (∀ (envs : List EnvVar) (idx : Int),
        ¬ (0 ≤ idx ∧ idx < (envs.length : Int)) →
        moveEnvToListEnd envs idx = envs) := by
  refine ⟨?_, ?_, ?_⟩
  · intro client fuel newrelic ns pod agentIndex appIndex h1 h2
    exact injectSDK_attrs_last client fuel newrelic ns pod agentIndex appIndex h1 h2
  · intro envs i v hv
    have hlt : i < envs.length := by
      by_contra hge
      rw [List.getElem?_eq_none (by omega)] at hv
      exact absurd hv (by simp)
    unfold moveEnvToListEnd
    rw [if_pos ⟨Int.ofNat_nonneg i, by exact_mod_cast hlt⟩]
    rw [Int.toNat_ofNat, hv]
  · intro envs idx h
    unfold moveEnvToListEnd
    rw [if_neg h]

/-- C3 witness: the amended theorem applied at a concrete pod,
environment list, and out-of-range index. -/
theorem c3_amended_witness :
    (getIndexOfEnv
      ((injectCommonSDKConfig noClient 5 {} nsDemo c1Pod 0 0).spec.containers.getD
        0 default).env envOTELResourceAttrs
      = ((((injectCommonSDKConfig noClient 5 {} nsDemo c1Pod 0
          0).spec.containers.getD 0 default).env).length : Int) - 1)
    ∧ moveEnvToListEnd [{ name := "A" }, { name := "B" }] ((0 : Nat) : Int)
      = ([{ name := "A" }, { name := "B" }] : List EnvVar).eraseIdx 0
          ++ [{ name := "A" }]
    ∧ moveEnvToListEnd [{ name := "A" }] (-1) = [{ name := "A" }] :=
  ⟨c3_amended_resource_attrs_last.1 noClient 5 {} nsDemo c1Pod 0 0
      (by decide) (by decide),
    c3_amended_resource_attrs_last.2.1 [{ name := "A" }, { name := "B" }] 0
      { name := "A" } (by decide),
    c3_amended_resource_attrs_last.2.2 [{ name := "A" }] (-1) (by decide)⟩

/-- C4 counterexample: the claim says every entry of the map returned by
createResourceMap has a non-empty value; but a user-declared attribute
override with an empty value is copied into the map verbatim. -/
theorem c4_counterexample_empty_value_emitted :
    ("custom.attr", "") ∈ createResourceMap noClient 1 c4Inst nsDemo c4Pod 0
    ∧ (("custom.attr", "") : String × String).2 = "" :=
  ⟨by decide, rfl⟩

/-- C4 (amended): every entry of the map returned by createResourceMap
either has a non-empty value or is copied verbatim from the
user-declared attribute overrides (which may declare an empty value);
in particular every computed (non-user-declared) entry is non-empty. -/
theorem c4_amended_entries_nonempty_or_user :
    ∀ (client : GetClient) (fuel : Nat) (newrelic : Instrumentation)
      (ns : K8sNamespace) (pod : Pod) (index : Nat) (p : String × String),
      p ∈ createResourceMap client fuel newrelic ns pod index →
      p.2 ≠ "" ∨ p ∈ newrelic.spec.resource.attributes :=
  fun client fuel newrelic ns pod index p hp =>
    createResourceMap_entries client fuel newrelic ns pod index p hp

/-- C4 witness: the amended theorem applied at a concrete map entry. -/
theorem c4_amended_witness :
    (("custom.attr", "") : String × String).2 ≠ ""
    ∨ ("custom.attr", "") ∈ c4Inst.spec.resource.attributes :=
  c4_amended_entries_nonempty_or_user noClient 1 c4Inst nsDemo c4Pod 0
    ("custom.attr", "") (by decide)

/-- C5: when the metadata's owner reference is a ReplicaSet and every
remote lookup attempt reports not-found (so the retry budget of 20
attempts is exhausted), addParentResourceLabels still returns normally,
recording exactly the ReplicaSet's own name (and uid when requested)
and contributing nothing from the unreachable parent; the exhausted
retry loop itself returns the not-found error rather than diverging. -/
theorem c5_replicaset_lookup_failure_best_effort :
    ∀ (fuel : Nat) (uid : Bool) (ns : K8sNamespace)
      (mName mUID rsName rsUID : String) (res : SMap),
      addParentResourceLabels (fun _ _ _ => GetResult.notFound) fuel uid ns
        { name := mName, uid := mUID,
          ownerReferences := [{ kind := "ReplicaSet", name := rsName, uid := rsUID }],
          annots := [] } res
      = (if uid then
          smapInsert (smapInsert res k8sReplicaSetNameKey rsName)
            k8sReplicaSetUIDKey rsUID
        else smapInsert res k8sReplicaSetNameKey rsName)
      ∧ retryOnError 20 (fun _ => GetResult.notFound) 0 = GetResult.notFound :=
  fun fuel uid ns mName mUID rsName rsUID res =>
    ⟨addParent_rs_notFound fuel uid ns mName mUID rsName rsUID res,
      retry_notFound 20 0⟩

/-- C6 counterexample: the claim says the chosen container index is the
first name match; with two containers named "a" at indices 0 and 2,
getContainerIndex returns 2 while the first match sits at index 0. -/
theorem c6_counterexample_last_match_wins :
    getContainerIndex "a" c6Pod = 2
    ∧ List.findIdx (fun c => c.name == "a") c6Pod.spec.containers = 0 :=
  ⟨by decide, by decide⟩

/-- C6 (amended): both the container search inlined in inject and the
Go-specific getContainerIndex (the identical loop, embedded once as
containerSearchIdx) choose the index of the last container whose name
matches, falling back to 0 when no name matches; with unique container
names this coincides with the first match. -/
theorem c6_amended_container_search_last_match :
    ∀ (containerName : String) (containers : List Container) (pod : Pod),
      containerSearchIdx containers containerName
        = (lastMatchIdx? containerName containers).getD 0
      ∧ getContainerIndex containerName pod
        = (lastMatchIdx? containerName pod.spec.containers).getD 0 :=
  fun n cs pod =>
    ⟨containerSearchIdx_eq_lastMatch cs n,
      containerSearchIdx_eq_lastMatch pod.spec.containers n⟩

/-- C7: chooseServiceName returns the first non-empty value among the
Deployment, StatefulSet, Job, CronJob, and Pod names recorded in the
attribute map, in that order, and the container's name when all five
are empty. -/
theorem c7_service_name_priority_chain :
    ∀ (pod : Pod) (resources : SMap) (index : Nat)
      (h : index < pod.spec.containers.length),
      chooseServiceName pod resources index
        = firstNonEmptyOr (pod.spec.containers.get ⟨index, h⟩).name
            [smapGet resources k8sDeploymentNameKey,
             smapGet resources k8sStatefulSetNameKey,
             smapGet resources k8sJobNameKey,
             smapGet resources k8sCronJobNameKey,
             smapGet resources k8sPodNameKey] :=
  fun pod resources index h => chooseServiceName_chain pod resources index h

/-- C7 witness: the priority chain evaluated at a concrete pod whose
attribute map declares only a Job name. -/
theorem c7_service_name_witness :
    chooseServiceName c7Pod c7Map 0
      = firstNonEmptyOr "ctr"
          [smapGet c7Map k8sDeploymentNameKey,
           smapGet c7Map k8sStatefulSetNameKey,
           smapGet c7Map k8sJobNameKey,
           smapGet c7Map k8sCronJobNameKey,
           smapGet c7Map k8sPodNameKey] :=
  c7_service_name_priority_chain c7Pod c7Map 0 (by decide)

/-- C8: chooseServiceVersion splits the container's image reference on
colons and returns the final segment, except that a final segment
containing a slash (a registry host:port) yields an absent version; in
particular "registry:5000/app" yields "" and "app:1.2.3" yields
"1.2.3". -/
theorem c8_service_version_guard :
    (∀ (pod : Pod) (index : Nat) (h : index < pod.spec.containers.length),
      chooseServiceVersion pod index
        = versionOfImage (pod.spec.containers.get ⟨index, h⟩).image)
    ∧ versionOfImage "registry:5000/app" = ""
    ∧ versionOfImage "app:1.2.3" = "1.2.3" :=
  ⟨fun pod index h => chooseServiceVersion_eq pod index h, by decide, by decide⟩

/-- C8 witness: the parser applied to the two images of the claim. -/
theorem c8_service_version_witness :
    chooseServiceVersion c8Pod 0 = "" ∧ chooseServiceVersion c8Pod 1 = "1.2.3" :=
  ⟨(c8_service_version_guard.1 c8Pod 0 (by decide)).trans (by decide),
    (c8_service_version_guard.1 c8Pod 1 (by decide)).trans (by decide)⟩

/-- C9: validation of an Instrumentation object succeeds exactly when
every declared environment variable in the common spec and in each
per-language spec has a name carrying one of the two recognized vendor
name-starts, and any error it returns is the message naming some
offending variable. -/
theorem c9_env_name_validation :
    ∀ r : Instrumentation,
      ((validate r = none) ↔ ∀ e ∈ allDeclaredEnvs r, goodEnvName e = true)
      ∧ (∀ err, validate r = some err →
          ∃ e, e ∈ allDeclaredEnvs r ∧ goodEnvName e = false
            ∧ err = envNameErrMsg e.name) := by
  intro r
  constructor
  · rw [validate_eq_validateAll, validateAll_none_iff]
    constructor
    · intro h e he
      rcases (mem_allDeclaredEnvs_iff r e).1 he with ⟨l, hl, hel⟩
      exact (validateEnv_eq_none_iff l).1 (h l hl) e hel
    · intro hall l hl
      rw [validateEnv_eq_none_iff]
      intro e he
      exact hall e ((mem_allDeclaredEnvs_iff r e).2 ⟨l, hl, he⟩)
  · intro err h
    rw [validate_eq_validateAll] at h
    rcases validateAll_some _ _ h with ⟨l, hl, hsome⟩
    rcases validateEnv_some_mem l err hsome with ⟨e, hel, hg, herr⟩
    exact ⟨e, (mem_allDeclaredEnvs_iff r e).2 ⟨l, hl, hel⟩, hg, herr⟩

/-- C9 witness: validation succeeds on an Instrumentation whose
declared names all carry a recognized vendor name-start. -/
theorem c9_env_name_validation_witness : validate c9Good = none :=
  (c9_env_name_validation c9Good).1.mpr (by decide)

/-- C10: when the pod's container list is empty, inject returns the pod
unchanged, for arbitrary per-language injector collaborators, remote
lookup capability, instrumentation set, and container name. -/
theorem c10_inject_empty_pod_unchanged :
    ∀ (apm : ApmInjectors) (annotValue : AnnotValue) (client : GetClient)
      (fuel : Nat) (insts : LanguageInstrumentations) (ns : K8sNamespace)
      (pod : Pod) (containerName : String),
      pod.spec.containers = [] →
      inject apm annotValue client fuel insts ns pod containerName = pod := by
  intro apm annotValue client fuel insts ns pod containerName h
  have hlen : pod.spec.containers.length < 1 := by rw [h]; simp
  unfold inject
  rw [if_pos hlen]

/-- C10 witness: inject applied to a pod with no containers. -/
theorem c10_inject_empty_pod_witness :
    inject trivialApm trivialAnnot noClient 1 {} nsDemo c10Pod "app" = c10Pod :=
  c10_inject_empty_pod_unchanged trivialApm trivialAnnot noClient 1 {} nsDemo
    c10Pod "app" rfl

end K8sOp
